import Mathlib

/-!
Verification development for the interview-recording pipeline
(`server/index.js` and the client `Interview.jsx` components).

Server side: chunk files live in `CHUNK_DIR` under names
`"{sessionId}-chunk-{index}-{origFilename}"`; session records live in
`records.json` as a JSON array.  We embed both as explicit state
(`ServerState`) and translate each Express handler into a pure state
transformer.  JavaScript strings are embedded as `List Char`,
timestamps (`Date.now()` / ISO strings) as `Nat`.

Client side: the recording/upload state machines of
`client/src/components/Interview.jsx` (current component) and of the
legacy single-recorder variant (the unnamed source file with the
`uploadQueueRef` chain) are embedded further below.
-/

/-- Characters of a string literal (JS strings are embedded as `List Char`). -/
def jstr (s : String) : List Char := s.data

/-- Decimal rendering of a `Nat`, as used by JS template interpolation of
`metadata.index` and `Date.now()` into file names. -/
def natChars (n : Nat) : List Char := (Nat.repr n).data

/-- The character between the embedded index and the original file name. -/
def hyphen : Char := '-'

/-- The literal separator used in every chunk file name. -/
def chunkSepS : String := "-chunk-"

/-- Separator as a character list. -/
def chunkSep : List Char := jstr chunkSepS

/-- Error message thrown by `assembleChunks` when a session has no chunks
(`server/index.js:772`). -/
def noChunksMsg : String := "no chunks found"

/-- Extension of the naive-concatenation output file (`server/index.js:800`). -/
def webmExtS : String := ".webm"

/-- The `source` tag stored on file entries created by `POST /upload-answer`
(`server/index.js:650`). -/
def fullSourceS : String := "full"

/-- JS `s.split(sep)` restricted to the first occurrence: returns the part
before the first occurrence of `sep` and everything after it, or `none`
when `sep` does not occur (used both for `split('-chunk-')[1]` in
`assembleChunks` and for the sweep's `^(.*?)-chunk-` regex). -/
def splitFirst (sep : List Char) : List Char → Option (List Char × List Char)
  | [] => none
  | c :: rest =>
    if sep.isPrefixOf (c :: rest) then some ([], (c :: rest).drop sep.length)
    else
      match splitFirst sep rest with
      | some (pre, post) => some (c :: pre, post)
      | none => none

/-- JS `Number(s)` on the digit-only fragment produced by
`split('-chunk-')[1].split('-')[0]`: `some n` for a (possibly empty)
digit string — `Number('')` is `0` — and `none` (NaN) otherwise. -/
def digitsVal (acc : Nat) : List Char → Option Nat
  | [] => some acc
  | c :: rest => if c.isDigit then digitsVal (acc * 10 + (c.toNat - 48)) rest else none

/-- The numeric chunk index a file name embeds, exactly as `assembleChunks`
parses it: `Number(f.split('-chunk-')[1].split('-')[0])`
(`server/index.js:774-778`).  Taking characters up to the first `'-'`
after the first `"-chunk-"` agrees with `split('-')[0]` of the part
between the first and second occurrence, because `"-chunk-"` itself
starts with `'-'`. -/
def jsChunkIdx (name : List Char) : Option Nat :=
  (splitFirst chunkSep name).bind fun pr => digitsVal 0 (pr.2.takeWhile (fun c => c ≠ hyphen))

/-- One stored chunk file. `sessionId`, `index` and `orig` determine the file
name `"{sessionId}-chunk-{index}-{orig}"` built at `server/index.js:755`;
`mtime` is the file's modification time and `payload` its bytes. -/
structure ChunkFile where
  sessionId : List Char
  index : Nat
  orig : List Char
  mtime : Nat
  payload : List Nat
deriving DecidableEq, Repr

/-- The stored file name of a chunk (`server/index.js:755`). -/
def chunkName (c : ChunkFile) : List Char :=
  c.sessionId ++ chunkSep ++ natChars c.index ++ [hyphen] ++ c.orig

/-- The `metadata` object of a session record.  `recordingActive` and
`finalizedAt` are the two pipeline flags; ISO timestamps are embedded
as `Nat`.  Candidate metadata (name, email, country, phone, source,
questions, interviewId, stack) is merged additively by the handlers but
is never read by the pipeline logic under verification, so it is not
modelled. -/
structure SessionMeta where
  recordingActive : Option Bool
  finalizedAt : Option Nat
  lastChunkAt : Option Nat
deriving DecidableEq, Repr

/-- One entry of a session's `files` array.  `source` is the full-upload tag for
entries created by `POST /upload-answer` and `none` for assembled
artifacts (which carry no `source` field). -/
structure FileEntry where
  filename : List Char
  source : Option String
  uploadedAt : Nat
deriving DecidableEq, Repr

/-- One session record of `records.json`.  The server always creates records
with `id = sessionId`, but `find` matches either field, so both are kept. -/
structure Session where
  id : List Char
  sessionId : List Char
  createdAt : Nat
  files : List FileEntry
  metadata : SessionMeta
deriving DecidableEq, Repr

/-- Server-side persistent state: the `records.json` array plus the chunk
directory contents. -/
structure ServerState where
  records : List Session
  chunks : List ChunkFile
deriving DecidableEq, Repr

/-- The predicate of `records.find(r => r.id === sessionId || r.sessionId === sessionId)`. -/
def sessMatches (sid : List Char) (r : Session) : Prop :=
  r.id = sid ∨ r.sessionId = sid

instance (sid : List Char) (r : Session) : Decidable (sessMatches sid r) := by
  unfold sessMatches; infer_instance

/-- The `findSession` helper (`server/index.js:458-460`). -/
def findSession (records : List Session) (sid : List Char) : Option Session :=
  records.find? (fun r => decide (sessMatches sid r))

/-- A fresh session record as created on first contact
(`server/index.js:815`, `729`, `612-619`). -/
def freshSession (sid : List Char) (now : Nat) : Session :=
  { id := sid, sessionId := sid, createdAt := now, files := [],
    metadata := { recordingActive := none, finalizedAt := none, lastChunkAt := none } }

/-- The find-or-create-then-mutate pattern every handler uses: mutate the
first record matching `sid` in place, or append a freshly created record
(`records.push(session)`) and mutate that. -/
def applyToSession (sid : List Char) (now : Nat) (f : Session → Session) :
    List Session → List Session
  | [] => [f (freshSession sid now)]
  | r :: rs =>
    if sessMatches sid r then f r :: rs else r :: applyToSession sid now f rs

/-- The chunk files `assembleChunks` selects for a session:
`fs.readdirSync(CHUNK_DIR).filter(f => f.startsWith(`{sessionId}-chunk-`))`
(`server/index.js:771`). -/
def sessionChunkFiles (st : ServerState) (sid : List Char) : List ChunkFile :=
  st.chunks.filter (fun c => decide ((sid ++ chunkSep) <+: chunkName c))

/-- JS `Number(...)` of a chunk name's embedded index, with the (never
reached under well-formed names) NaN case defaulted to `0`; the JS sort
comparator's behaviour on NaN is unspecified, and all order theorems
assume well-formed names. -/
def chunkKeyD (c : ChunkFile) : Nat := (jsChunkIdx (chunkName c)).getD 0

/-- Comparator of the `files.sort((a,b) => Number(ai) - Number(bi))` call
(`server/index.js:774-778`). -/
def chunkOrder (a b : ChunkFile) : Prop := chunkKeyD a ≤ chunkKeyD b

instance : DecidableRel chunkOrder := fun _ _ => Nat.decLe _ _

instance : IsTotal ChunkFile chunkOrder := ⟨fun _ _ => Nat.le_total _ _⟩

instance : IsTrans ChunkFile chunkOrder := ⟨fun _ _ _ => Nat.le_trans⟩

/-- The ordered list of chunks handed to concatenation (ffmpeg concat list or
the naive write loop — both consume `chunkPaths` in this order,
`server/index.js:774-808`).  JS `Array.prototype.sort` is a stable sort,
as is `List.insertionSort`. -/
def assembledSegments (st : ServerState) (sid : List Char) : List ChunkFile :=
  List.insertionSort chunkOrder (sessionChunkFiles st sid)

/-- Byte stream of the naive-concatenation fallback: each sorted chunk's
bytes written in order (`server/index.js:802-808`). -/
def assembledBytes (st : ServerState) (sid : List Char) : List Nat :=
  (assembledSegments st sid).flatMap ChunkFile.payload

/-- The file entry an assembly at time `now` appends: name
`"{Date.now()}-{sessionId}.webm"` (naive-concat branch,
`server/index.js:800,843`), no `source` tag. -/
def assembledEntry (sid : List Char) (now : Nat) : FileEntry :=
  { filename := natChars now ++ [hyphen] ++ sid ++ jstr webmExtS,
    source := none, uploadedAt := now }

/-- The `assembleChunks` helper (`server/index.js:770-877`): throws
`'no chunks found'` on an empty chunk list; otherwise concatenates the
sorted chunks into a new artifact, marks the session
`recordingActive=false` / `finalizedAt=now`, appends one file entry, and
deletes the consumed chunk files.  Thumbnailing and async grading do not
touch the modelled state. -/
def assembleChunks (st : ServerState) (sid : List Char) (now : Nat) :
    Except String (ServerState × FileEntry) :=
  if sessionChunkFiles st sid = [] then .error noChunksMsg
  else
    let fe := assembledEntry sid now
    let records2 := applyToSession sid now (fun s =>
      { s with
        metadata := { s.metadata with recordingActive := some false, finalizedAt := some now },
        files := s.files ++ [fe] }) st.records
    let chunks2 := st.chunks.filter (fun c => decide (¬ (sid ++ chunkSep) <+: chunkName c))
    .ok ({ records := records2, chunks := chunks2 }, fe)

/-- State effect of a fire-and-forget `assembleChunks` call whose rejection
is only logged (beacon and sweep paths). -/
def assembleEffect (st : ServerState) (sid : List Char) (now : Nat) : ServerState :=
  match assembleChunks st sid now with
  | .ok (st2, _) => st2
  | .error _ => st

/-- The `session?.metadata?.recordingActive` optional chain used by the
finalize guards. -/
def recordingActiveFlag (st : ServerState) (sid : List Char) : Option Bool :=
  (findSession st.records sid).map (fun s => s.metadata.recordingActive) |>.join

/-- The `session?.metadata?.finalizedAt` value of a session. -/
def finalizedAtOf (st : ServerState) (sid : List Char) : Option Nat :=
  (findSession st.records sid).map (fun s => s.metadata.finalizedAt) |>.join

/-- The `files` array of the session record for `sid` (empty when no record
exists yet). -/
def sessionFilesD (st : ServerState) (sid : List Char) : List FileEntry :=
  match findSession st.records sid with
  | some s => s.files
  | none => []

/-- Observable result of `POST /upload-complete`: HTTP 409 conflict
(`'Recording still in progress…'`), HTTP 200 with the assembled file
entry, or HTTP 500 with the thrown error message. -/
inductive FinalizeResponse where
  | conflict
  | assembled (file : FileEntry)
  | failed (msg : String)
deriving DecidableEq, Repr

/-- The `POST /upload-complete` handler (`server/index.js:880-901`): reject
with 409 while `recordingActive === true`, otherwise run `assembleChunks`
synchronously and report its outcome. -/
def uploadComplete (st : ServerState) (sid : List Char) (now : Nat) :
    FinalizeResponse × ServerState :=
  if recordingActiveFlag st sid = some true then (.conflict, st)
  else
    match assembleChunks st sid now with
    | .ok (st2, fe) => (.assembled fe, st2)
    | .error msg => (.failed msg, st)

/-- Observable result of the beacon endpoint: both cases are HTTP 202, with
message `'Recording active; assemble skipped'` or `'Assemble triggered'`. -/
inductive BeaconResponse where
  | skipped
  | triggered
deriving DecidableEq, Repr

/-- The `POST /upload-complete-beacon` handler (`server/index.js:939-962`):
without `force`, an active recording turns the beacon into a no-op;
otherwise assembly runs in the background and errors are only logged. -/
def uploadCompleteBeacon (st : ServerState) (sid : List Char) (force : Bool) (now : Nat) :
    BeaconResponse × ServerState :=
  if ¬ force ∧ recordingActiveFlag st sid = some true then (.skipped, st)
  else (.triggered, assembleEffect st sid now)

/-- The `POST /upload-chunk` handler (`server/index.js:715-766`), restricted
to the modelled state: upsert the session record with
`recordingActive=true` and `lastChunkAt=now`, then store the chunk file
under its session-prefixed name. -/
def uploadChunk (st : ServerState) (sid : List Char) (idx : Nat) (orig : List Char)
    (payload : List Nat) (now : Nat) : ServerState :=
  { records := applyToSession sid now (fun s =>
      { s with metadata :=
          { s.metadata with recordingActive := some true, lastChunkAt := some now } }) st.records,
    chunks := st.chunks ++ [{ sessionId := sid, index := idx, orig := orig,
                              mtime := now, payload := payload }] }

/-- The `POST /upload-answer` handler (`server/index.js:602-712`), restricted
to the modelled state: upsert the session, set `recordingActive=false`
and `finalizedAt=now` (lines 640-642), append one `source:'full'` file
entry, and delete all chunk files with the session prefix
(lines 687-694).  No chunk assembly is invoked on this path. -/
def uploadAnswer (st : ServerState) (sid : List Char) (fname : List Char) (now : Nat) :
    ServerState × FileEntry :=
  let fe : FileEntry := { filename := fname, source := some fullSourceS, uploadedAt := now }
  ( { records := applyToSession sid now (fun s =>
        { s with
          metadata := { s.metadata with recordingActive := some false, finalizedAt := some now },
          files := s.files ++ [fe] }) st.records,
      chunks := st.chunks.filter (fun c => decide (¬ (sid ++ chunkSep) <+: chunkName c)) },
    fe )

/-- Group key of the background sweep's lazy regex match on `"-chunk-"` —
the shortest prefix before a `"-chunk-"` occurrence; `none` when the name
contains no separator (such a file is skipped, `server/index.js:970-974`). -/
def sweepGroupKey (c : ChunkFile) : Option (List Char) :=
  (splitFirst chunkSep (chunkName c)).map Prod.fst

/-- The chunk files the sweep groups under `sid`. -/
def chunkGroup (st : ServerState) (sid : List Char) : List ChunkFile :=
  st.chunks.filter (fun c => decide (sweepGroupKey c = some sid))

/-- Most recent modification time of a group's files
(`server/index.js:991-996`). -/
def latestMtime (st : ServerState) (sid : List Char) : Nat :=
  (chunkGroup st sid).foldl (fun acc c => max acc c.mtime) 0

/-- Record guard of the background sweep for one group
(`server/index.js:977-988`): skip when the session record says
`recordingActive === true` or has a (truthy) `finalizedAt`. -/
def sweepGuardB (st : ServerState) (sid : List Char) : Bool :=
  match findSession st.records sid with
  | some s => !(s.metadata.recordingActive == some true) && (s.metadata.finalizedAt == none)
  | none => true

/-- Full per-group test of the sweep (`server/index.js:977-998`): record
guard plus more than 30 seconds without chunk activity. -/
def sweepShouldAssemble (st : ServerState) (sid : List Char) (now : Nat) : Bool :=
  sweepGuardB st sid && decide (30000 < now - latestMtime st sid)

/-- The session ids for which one sweep tick triggers `assembleChunks`
(`server/index.js:965-1009`). -/
def sweepTargets (st : ServerState) (now : Nat) : List (List Char) :=
  ((st.chunks.filterMap sweepGroupKey).dedup).filter
    (fun sid => sweepShouldAssemble st sid now)

/-- One tick of the background sweep: fire `assembleChunks` for every stale,
unguarded group (failures only logged). -/
def sweepRun (st : ServerState) (now : Nat) : ServerState :=
  (sweepTargets st now).foldl (fun s sid => assembleEffect s sid now) st

/-!
Client-side models.

`Interview.jsx` (current component): the session timer effect and the
auto-stop effect (lines 125-147), the screen-share acquisition loop
`startDisplayStreamRequireMonitor` (lines 306-333), and the final-upload
path `uploadFinal` / `stopRecording` (lines 490-565).

Legacy single-recorder variant (unnamed source file, `uploadQueueRef`
chain): the sequential chunk-upload queue built in `mr.ondataavailable`
and the `mr.onstop` finalization with its fallback to the server-side
`finalize` call.
-/

/-- Value reported by a display stream's `getSettings().displaySurface`
when the user shared the entire screen. -/
def monitorS : String := "monitor"

/-- A display stream returned by `getDisplayMedia`: its reported surface and
a track identifier (used to record which streams had their tracks
stopped). -/
structure DisplayMedia where
  surface : String
  trackId : Nat
deriving DecidableEq, Repr

/-- Outcome of the screen-share acquisition flow: a monitor stream, or the
terminal rejection (`throw new Error('Please share your Entire Screen…')`,
`Interview.jsx:332`) — the spec's `ScreenShareRejected`. -/
inductive CaptureOutcome where
  | ok (d : DisplayMedia)
  | screenShareRejected
deriving DecidableEq, Repr

/-- Result of the acquisition loop: outcome, the `trackId`s of every
rejected stream whose tracks were stopped (in order), and the number of
`getDisplayMedia` prompts shown. -/
structure MonitorLoopResult where
  outcome : CaptureOutcome
  stoppedTracks : List Nat
  prompts : Nat
deriving DecidableEq, Repr

/-- The `for (let attempt = 0; attempt < 3; attempt++)` body of
`startDisplayStreamRequireMonitor` (`Interview.jsx:311-330`), over the
remaining attempt numbers: prompt, accept a `'monitor'` surface, else
stop the stream's tracks and re-prompt. -/
def monitorLoop (picker : Nat → DisplayMedia) : List Nat → MonitorLoopResult
  | [] => { outcome := .screenShareRejected, stoppedTracks := [], prompts := 0 }
  | a :: rest =>
    let d := picker a
    if d.surface = monitorS then { outcome := .ok d, stoppedTracks := [], prompts := 1 }
    else
      let t := monitorLoop picker rest
      { outcome := t.outcome, stoppedTracks := d.trackId :: t.stoppedTracks,
        prompts := t.prompts + 1 }

/-- The `startDisplayStreamRequireMonitor` helper (`Interview.jsx:306-333`):
at most three prompts, attempt numbers 0, 1, 2.  `picker` gives the
stream the user selects at each prompt. -/
def startDisplayStreamRequireMonitor (picker : Nat → DisplayMedia) : MonitorLoopResult :=
  monitorLoop picker [0, 1, 2]

/-- Error message surfaced by `startRecording` when screen acquisition
fails terminally (`Interview.jsx:332,430`). -/
def screenRejectMsg : String := "Please share your Entire Screen (not a single tab/app)."

/-- UI state relevant to claim C9 after `startRecording` returns. -/
structure RecUI where
  recording : Bool
  recorderStarted : Bool
  uploadError : String
deriving DecidableEq, Repr

/-- The screen-share-dependent part of `startRecording`
(`Interview.jsx:424-487`): on rejection, set the error, force
`recording=false` and return before any `MediaRecorder` is constructed
or started; on success the recorder starts and `recording` becomes true. -/
def startRecording (picker : Nat → DisplayMedia) : RecUI :=
  match (startDisplayStreamRequireMonitor picker).outcome with
  | .screenShareRejected =>
    { recording := false, recorderStarted := false, uploadError := screenRejectMsg }
  | .ok _ =>
    { recording := true, recorderStarted := true, uploadError := "" }

/-- Maximum session duration: `MAX_DURATION_SECONDS = 15 * 60`
(`Interview.jsx:9`). -/
def maxDurationSeconds : Nat := 15 * 60

/-- Client state touched by the timer interval and the auto-stop effect of
`Interview.jsx`: the `recording` state, the `elapsedSeconds` counter, the
one-shot `autoStopTriggeredRef` guard, the `stopReasonRef`, and a count
of how many times the stop sequence (`stopRecording`) was invoked by the
auto-stop path. -/
structure TimerState where
  recording : Bool
  elapsedSeconds : Nat
  autoStopTriggered : Bool
  stopReason : Option String
  stopCalls : Nat
deriving DecidableEq, Repr

/-- Stop reason recorded by the auto-stop path (`Interview.jsx:144`). -/
def timeoutS : String := "timeout"

/-- The auto-stop effect (`Interview.jsx:138-147`): while recording, once
`elapsedSeconds` is no longer below the maximum and the one-shot guard is
unset, set the guard, record the `'timeout'` stop reason and invoke
`stopRecording` (which sets `recording` to false). -/
def autoStopEffect (st : TimerState) : TimerState :=
  if ¬ st.recording then st
  else if st.elapsedSeconds < maxDurationSeconds then st
  else if st.autoStopTriggered then st
  else
    { st with autoStopTriggered := true, stopReason := some timeoutS,
              stopCalls := st.stopCalls + 1, recording := false }

/-- One tick of the session timer (`Interview.jsx:125-131`) followed by the
re-run of the auto-stop effect on the updated `elapsedSeconds`: the
interval only exists while `recording`, and the counter saturates at the
maximum (`prev >= MAX ? prev : prev + 1`). -/
def timerTick (st : TimerState) : TimerState :=
  if ¬ st.recording then st
  else
    autoStopEffect { st with
      elapsedSeconds :=
        if maxDurationSeconds ≤ st.elapsedSeconds then st.elapsedSeconds
        else st.elapsedSeconds + 1 }

/-- State at the start of a recording: `autoStopTriggeredRef` reset by
`startRecording` (`Interview.jsx:412`), counter at zero. -/
def recordingStart : TimerState :=
  { recording := true, elapsedSeconds := 0, autoStopTriggered := false,
    stopReason := none, stopCalls := 0 }

/-- Error shown by `stopRecording` when the final upload fails
(`Interview.jsx:554`). -/
def finalUploadFailedMsg : String := "Upload failed. Please try again."

/-- Outcome of `uploadFinal`'s retry loop (`Interview.jsx:499-512`):
whether some attempt succeeded, how many attempts were made, and the
backoff delays awaited after failed attempts (in ms, in order). -/
structure UploadFinalResult where
  succeeded : Bool
  attempts : Nat
  backoffs : List Nat
deriving DecidableEq, Repr

/-- The `for (let attempt = 0; attempt < 3; attempt++)` body of
`uploadFinal` over the remaining attempt numbers: on success clear
`lastErr` and break; on failure await `600 * (attempt + 1)` ms and
continue. `netOk a` tells whether the `fetch` of attempt `a` succeeds
with an OK status. -/
def uploadFinalLoop (netOk : Nat → Bool) : List Nat → UploadFinalResult
  | [] => { succeeded := false, attempts := 0, backoffs := [] }
  | a :: rest =>
    if netOk a then { succeeded := true, attempts := 1, backoffs := [] }
    else
      let t := uploadFinalLoop netOk rest
      { succeeded := t.succeeded, attempts := t.attempts + 1,
        backoffs := 600 * (a + 1) :: t.backoffs }

/-- The `uploadFinal` retry policy (`Interview.jsx:490-514`): up to three
attempts of `POST /upload-answer`, attempt numbers 0, 1, 2; throws when
`lastErr` survives all three. -/
def uploadFinal (netOk : Nat → Bool) : UploadFinalResult :=
  uploadFinalLoop netOk [0, 1, 2]

/-- Outcome of the current component's `stopRecording` upload phase. -/
structure StopOutcome where
  finalAttempts : Nat
  backoffs : List Nat
  finalizeFallbackCalled : Bool
  thankYouOpen : Bool
  uploadError : String
deriving DecidableEq, Repr

/-- The upload phase of `stopRecording` in the current `Interview.jsx`
(lines 538-554): if no screen chunks were captured, or `uploadFinal`
throws after its retries, set the upload error; on success open the
thank-you modal.  This function contains no call of `finalizeUpload`
(`POST /upload-complete`) on any path — `finalizeFallbackCalled` is
`false` throughout. -/
def stopRecording (hasScreenChunks : Bool) (netOk : Nat → Bool) : StopOutcome :=
  if ¬ hasScreenChunks then
    { finalAttempts := 0, backoffs := [], finalizeFallbackCalled := false,
      thankYouOpen := false, uploadError := finalUploadFailedMsg }
  else
    let r := uploadFinal netOk
    if r.succeeded then
      { finalAttempts := r.attempts, backoffs := r.backoffs, finalizeFallbackCalled := false,
        thankYouOpen := true, uploadError := "" }
    else
      { finalAttempts := r.attempts, backoffs := r.backoffs, finalizeFallbackCalled := false,
        thankYouOpen := false, uploadError := finalUploadFailedMsg }

/-!
Legacy single-recorder variant: sequential chunk-upload queue
(`mr.ondataavailable`) and `mr.onstop` finalization.
-/

/-- One observable step of the legacy chunk-upload queue: an upload attempt
`k` (0-based) for segment `seg`, the awaited backoff after a failed
attempt, or the `console.warn` log after the final failed attempt. -/
inductive QEvent where
  | attempt (seg : Nat) (k : Nat)
  | wait (seg : Nat) (ms : Nat)
  | failLog (seg : Nat)
deriving DecidableEq, Repr

/-- The `for (let attempt = 0; attempt < 2; attempt++)` retry body of one
queued segment upload (legacy variant, lines 301-315): on success
return; on failure log when it was the last attempt (`attempt === 1`),
then await `500 * (attempt + 1)` ms and continue.  `netOk seg k` tells
whether the `fetch` of attempt `k` for segment `seg` succeeds. -/
def chunkTryLoop (seg : Nat) (netOk : Nat → Nat → Bool) : List Nat → List QEvent × Bool
  | [] => ([], false)
  | a :: rest =>
    if netOk seg a then ([QEvent.attempt seg a], true)
    else
      let t := chunkTryLoop seg netOk rest
      (QEvent.attempt seg a ::
        ((if a = 1 then [QEvent.failLog seg] else []) ++ QEvent.wait seg (500 * (a + 1)) :: t.1),
       t.2)

/-- One segment's task on the queue: two attempt numbers 0, 1. -/
def segUpload (seg : Nat) (netOk : Nat → Nat → Bool) : List QEvent × Bool :=
  chunkTryLoop seg netOk [0, 1]

/-- Events of the whole queue for `n` enqueued segments: each
`uploadQueueRef.current = uploadQueueRef.current.then(...)` chains the
next task strictly after the previous one settles, so the queue's
behaviour is the in-order concatenation of the per-segment tasks. -/
def queueTrace (n : Nat) (netOk : Nat → Nat → Bool) : List QEvent :=
  (List.range n).flatMap (fun seg => (segUpload seg netOk).1)

/-- Segments whose upload eventually succeeded. -/
def uploadedSegs (n : Nat) (netOk : Nat → Nat → Bool) : List Nat :=
  (List.range n).filter (fun seg => (segUpload seg netOk).2)

/-- Legacy error message on total upload failure (single-recorder variant,
line 348). -/
def legacyFailMsg : String := "Upload failed. Please download your recording and try again."

/-- Outcome of the legacy `mr.onstop` handler. -/
structure OnstopResult where
  finalizeFallbackCalled : Bool
  uploadSucceeded : Bool
  thankYouOpen : Bool
  uploadError : String
deriving DecidableEq, Repr

/-- The legacy `mr.onstop` finalization (single-recorder variant, lines
319-361): one `POST /upload-answer` attempt with the full blob; on
failure fall back to one `finalizeUpload` (`POST /upload-complete`)
call; open the thank-you modal iff either succeeded.  Independent of the
chunk queue: `onstop` never awaits `uploadQueueRef`. -/
def mrOnstop (answerOk : Bool) (finalizeOk : Bool) : OnstopResult :=
  if answerOk then
    { finalizeFallbackCalled := false, uploadSucceeded := true,
      thankYouOpen := true, uploadError := "" }
  else if finalizeOk then
    { finalizeFallbackCalled := true, uploadSucceeded := true,
      thankYouOpen := true, uploadError := "" }
  else
    { finalizeFallbackCalled := true, uploadSucceeded := false,
      thankYouOpen := false, uploadError := legacyFailMsg }

/-- A whole legacy session run as observed by the claims: the queue trace of
the `n` recorded segments and the `onstop` finalization.  The `onstop`
component takes only the final-phase network outcomes — in the source,
`mr.onstop` is chained on nothing but the recorder stop, not on the
upload queue. -/
def legacySessionRun (n : Nat) (netOk : Nat → Nat → Bool) (answerOk finalizeOk : Bool) :
    List QEvent × OnstopResult :=
  (queueTrace n netOk, mrOnstop answerOk finalizeOk)

/-!
Shared lemmas about the server model.
-/

/-- Soundness of `splitFirst`: a successful split reconstructs the input. -/
theorem splitFirst_eq {sep : List Char} :
    ∀ {l pre post : List Char}, splitFirst sep l = some (pre, post) → l = pre ++ sep ++ post := by
  intro l
  induction l with
  | nil => intro pre post h; simp [splitFirst] at h
  | cons c rest ih =>
    intro pre post h
    by_cases hp : sep.isPrefixOf (c :: rest) = true
    · rw [splitFirst, if_pos hp] at h
      have hpre : sep <+: c :: rest := List.isPrefixOf_iff_prefix.mp hp
      have hdrop := List.prefix_iff_eq_append.mp hpre
      simp only [Option.some.injEq, Prod.mk.injEq] at h
      rw [← h.1, ← h.2]
      simpa using hdrop.symm
    · rw [splitFirst, if_neg hp] at h
      cases hsf : splitFirst sep rest with
      | none => rw [hsf] at h; simp at h
      | some pr =>
        rw [hsf] at h
        cases pr with
        | mk pre2 post2 =>
          simp only [Option.some.injEq, Prod.mk.injEq] at h
          rw [← h.1, ← h.2]
          have := ih hsf
          simp [this]

/-- A chunk the sweep groups under `sid` carries the `"{sid}-chunk-"` name
prefix that `assembleChunks` and the cleanup passes filter on. -/
theorem sweepGroupKey_startsWith {c : ChunkFile} {sid : List Char}
    (h : sweepGroupKey c = some sid) : (sid ++ chunkSep) <+: chunkName c := by
  unfold sweepGroupKey at h
  cases hsf : splitFirst chunkSep (chunkName c) with
  | none => rw [hsf] at h; simp at h
  | some pr =>
    rw [hsf] at h
    simp only [Option.map_some', Option.some.injEq] at h
    have heq := splitFirst_eq hsf
    rw [heq, h]
    exact ⟨pr.2, by simp⟩

/-- Skipping a non-matching record in `findSession`. -/
theorem find?_sess_cons_neg (sid : List Char) (r : Session) (rs : List Session)
    (hm : ¬ sessMatches sid r) :
    List.find? (fun s => decide (sessMatches sid s)) (r :: rs) =
      List.find? (fun s => decide (sessMatches sid s)) rs := by
  apply List.find?_cons_of_neg
  simpa using hm

/-- Behaviour of `findSession` after the find-or-create-then-mutate pattern,
for updates that do not touch the identifying fields. -/
theorem findSession_applyToSession (sid : List Char) (now : Nat) (f : Session → Session)
    (hf : ∀ s, (f s).id = s.id ∧ (f s).sessionId = s.sessionId) :
    ∀ rs : List Session,
      findSession (applyToSession sid now f rs) sid =
        some (f ((findSession rs sid).getD (freshSession sid now))) := by
  intro rs
  induction rs with
  | nil =>
    have hm : sessMatches sid (f (freshSession sid now)) := by
      left; rw [(hf (freshSession sid now)).1]; rfl
    simp [applyToSession, findSession, List.find?_cons, hm]
  | cons r rs ih =>
    by_cases hm : sessMatches sid r
    · have hmf : sessMatches sid (f r) := by
        rcases hm with h1 | h1
        · left; rw [(hf r).1, h1]
        · right; rw [(hf r).2, h1]
      simp [applyToSession, findSession, List.find?_cons, hm, hmf]
    · simp only [applyToSession, if_neg hm, findSession] at ih ⊢
      rw [find?_sess_cons_neg sid r _ hm, find?_sess_cons_neg sid r _ hm]
      exact ih

/-- The session update performed by a successful assembly at time `now`. -/
def assembleUpd (fe : FileEntry) (now : Nat) (s : Session) : Session :=
  { s with
    metadata := { s.metadata with recordingActive := some false, finalizedAt := some now },
    files := s.files ++ [fe] }

/-- Successful `assembleChunks` in closed form: some chunk matched, and the
new state updates the session record and deletes the matching chunks. -/
theorem assembleChunks_of_ne {st : ServerState} {sid : List Char} (now : Nat)
    (h : sessionChunkFiles st sid ≠ []) :
    assembleChunks st sid now =
      .ok ({ records := applyToSession sid now (assembleUpd (assembledEntry sid now) now) st.records,
             chunks := st.chunks.filter
               (fun c => decide (¬ (sid ++ chunkSep) <+: chunkName c)) },
           assembledEntry sid now) := by
  rw [assembleChunks, if_neg h]
  rfl

/-- Inversion of a successful `assembleChunks`. -/
theorem assembleChunks_ok {st : ServerState} {sid : List Char} {now : Nat}
    {st2 : ServerState} {fe : FileEntry}
    (h : assembleChunks st sid now = .ok (st2, fe)) :
    sessionChunkFiles st sid ≠ [] ∧ fe = assembledEntry sid now ∧
    st2.records = applyToSession sid now (assembleUpd (assembledEntry sid now) now) st.records ∧
    st2.chunks = st.chunks.filter (fun c => decide (¬ (sid ++ chunkSep) <+: chunkName c)) := by
  by_cases he : sessionChunkFiles st sid = []
  · rw [assembleChunks, if_pos he] at h
    simp at h
  · rw [assembleChunks_of_ne now he] at h
    simp only [Except.ok.injEq, Prod.mk.injEq] at h
    exact ⟨he, h.2.symm, by rw [← h.1], by rw [← h.1]⟩

/-- Deleting every `"{sid}-chunk-"`-prefixed chunk leaves the session with
no selectable chunk files. -/
theorem sessionChunkFiles_filter_not (chunks : List ChunkFile) (records : List Session)
    (sid : List Char) :
    sessionChunkFiles
      { records := records,
        chunks := chunks.filter (fun c => decide (¬ (sid ++ chunkSep) <+: chunkName c)) } sid
      = [] := by
  unfold sessionChunkFiles
  rw [List.filter_filter]
  have : ∀ c : ChunkFile,
      (decide ((sid ++ chunkSep) <+: chunkName c) &&
       decide (¬ (sid ++ chunkSep) <+: chunkName c)) = false := by
    intro c
    by_cases hc : (sid ++ chunkSep) <+: chunkName c <;> simp [hc]
  simp only [this, List.filter_false]

/-- Post-state of a successful assembly, in terms of the observable session
fields used by the claims. -/
theorem assembleChunks_ok_post {st : ServerState} {sid : List Char} {now : Nat}
    {st2 : ServerState} {fe : FileEntry}
    (h : assembleChunks st sid now = .ok (st2, fe)) :
    recordingActiveFlag st2 sid = some false ∧
    finalizedAtOf st2 sid = some now ∧
    sessionFilesD st2 sid = sessionFilesD st sid ++ [fe] ∧
    sessionChunkFiles st2 sid = [] := by
  obtain ⟨hne, hfe, hrec, hch⟩ := assembleChunks_ok h
  have hid : ∀ s : Session, (assembleUpd (assembledEntry sid now) now s).id = s.id ∧
      (assembleUpd (assembledEntry sid now) now s).sessionId = s.sessionId := by
    intro s; exact ⟨rfl, rfl⟩
  have hfind := findSession_applyToSession sid now
    (assembleUpd (assembledEntry sid now) now) hid st.records
  refine ⟨?_, ?_, ?_, ?_⟩
  · rw [recordingActiveFlag, hrec, hfind]; rfl
  · rw [finalizedAtOf, hrec, hfind]; rfl
  · rw [sessionFilesD, hrec, hfind, hfe]
    cases hf : findSession st.records sid with
    | none => simp [sessionFilesD, hf, assembleUpd, freshSession]
    | some s => simp [sessionFilesD, hf, assembleUpd]
  · have : st2 = { records := st2.records, chunks := st2.chunks } := rfl
    rw [sessionChunkFiles] at *
    rw [hch]
    have := sessionChunkFiles_filter_not st.chunks st2.records sid
    rw [sessionChunkFiles] at this
    exact this

/-- Under well-formed names and distinct embedded indices, the assembly
order is strictly increasing in the chunk index. -/
theorem assembledSegments_pairwise {st : ServerState} {sid : List Char}
    (hwf : ∀ c ∈ sessionChunkFiles st sid, jsChunkIdx (chunkName c) = some c.index)
    (hnd : ((sessionChunkFiles st sid).map ChunkFile.index).Nodup) :
    (assembledSegments st sid).Pairwise (fun a b => a.index < b.index) := by
  have hp : List.Perm (assembledSegments st sid) (sessionChunkFiles st sid) :=
    List.perm_insertionSort _ _
  have hs : List.Sorted chunkOrder (assembledSegments st sid) :=
    List.sorted_insertionSort _ _
  have hkey : ∀ c ∈ assembledSegments st sid, chunkKeyD c = c.index := by
    intro c hc
    have hw := hwf c (hp.subset hc)
    rw [chunkKeyD, hw]
    rfl
  have hnd2 : ((assembledSegments st sid).map ChunkFile.index).Nodup :=
    ((hp.map ChunkFile.index).nodup_iff).mpr hnd
  have hne : (assembledSegments st sid).Pairwise (fun a b => a.index ≠ b.index) :=
    (List.pairwise_map).mp hnd2
  have hle : (assembledSegments st sid).Pairwise (fun a b => a.index ≤ b.index) := by
    refine hs.imp_of_mem ?_
    intro a b ha hb hab
    rw [← hkey a ha, ← hkey b hb]
    exact hab
  exact (hle.and hne).imp (fun h => lt_of_le_of_ne h.1 h.2)

/-- Two permuted lists that are both strictly sorted by chunk index are
equal. -/
theorem pairwiseLtIdx_eq {l₁ l₂ : List ChunkFile} (hp : List.Perm l₁ l₂)
    (h1 : l₁.Pairwise (fun a b => a.index < b.index))
    (h2 : l₂.Pairwise (fun a b => a.index < b.index)) : l₁ = l₂ := by
  haveI : IsAntisymm ChunkFile (fun a b => a.index < b.index) :=
    ⟨fun _ _ hab hba => absurd hba (Nat.lt_asymm hab)⟩
  exact List.eq_of_perm_of_sorted hp h1 h2

/-- Finalize on a session without chunks and without an active recording
flag: HTTP 500 with `'no chunks found'`, state untouched. -/
theorem uploadComplete_of_no_chunks {st : ServerState} {sid : List Char} (t : Nat)
    (hempty : sessionChunkFiles st sid = [])
    (hactive : recordingActiveFlag st sid ≠ some true) :
    uploadComplete st sid t = (.failed noChunksMsg, st) := by
  have he : assembleChunks st sid t = Except.error noChunksMsg := by
    rw [assembleChunks, if_pos hempty]
  rw [uploadComplete, if_neg hactive, he]

/-- Propositional reading of the sweep's record guard. -/
theorem sweepGuardB_iff (st : ServerState) (sid : List Char) :
    sweepGuardB st sid = true ↔
      ∀ s, findSession st.records sid = some s →
        s.metadata.recordingActive ≠ some true ∧ s.metadata.finalizedAt = none := by
  unfold sweepGuardB
  cases h : findSession st.records sid with
  | none => simp
  | some s => simp

/-!
Claim theorems (server side).
-/

/-- Witness session id used by concrete states below. -/
def sessAS : String := "alice-7"

/-- Witness session id as a character list. -/
def sidW : List Char := jstr sessAS

/-- Witness original chunk file name suffix. -/
def segWS : String := "seg.webm"

/-- Witness suffix as a character list. -/
def origW : List Char := jstr segWS

/-- C1 (amended): for every session, calling finalize (`POST
/upload-complete`) twice in sequence produces exactly one artifact — the
first successful call appends exactly one file entry and deletes the
session's chunk files, and the second call fails with `'no chunks found'`
and changes nothing.  The guard is the chunk deletion performed by the
first assembly, not a `finalizedAt` check: the handler never consults
`finalizedAt`. -/
theorem uploadComplete_twice_one_artifact {st : ServerState} {sid : List Char}
    {t1 t2 : Nat} {fe : FileEntry} {st1 : ServerState}
    (h : uploadComplete st sid t1 = (.assembled fe, st1)) :
    sessionFilesD st1 sid = sessionFilesD st sid ++ [fe] ∧
    uploadComplete st1 sid t2 = (.failed noChunksMsg, st1) := by
  have hx : assembleChunks st sid t1 = Except.ok (st1, fe) := by
    rw [uploadComplete] at h
    by_cases hg : recordingActiveFlag st sid = some true
    · rw [if_pos hg] at h
      simp at h
    · rw [if_neg hg] at h
      cases ha : assembleChunks st sid t1 with
      | ok p =>
        rw [ha] at h
        obtain ⟨s2, f2⟩ := p
        simp only [Prod.mk.injEq, FinalizeResponse.assembled.injEq] at h
        rw [h.1, h.2]
      | error m =>
        rw [ha] at h
        simp at h
  obtain ⟨hact, hfin, hfiles, hempty⟩ := assembleChunks_ok_post hx
  refine ⟨hfiles, ?_⟩
  exact uploadComplete_of_no_chunks t2 hempty (by rw [hact]; simp)

/-- Concrete state for the C1 witness: one stored chunk, no record yet. -/
def stC1 : ServerState :=
  { records := [],
    chunks := [{ sessionId := sidW, index := 0, orig := origW, mtime := 0, payload := [7] }] }

/-- Witness for C1 at a concrete state: the double finalize leaves exactly
the one assembled entry. -/
theorem uploadComplete_twice_one_artifact_witness :
    sessionFilesD (uploadComplete stC1 sidW 5).2 sidW =
      sessionFilesD stC1 sidW ++ [assembledEntry sidW 5] ∧
    uploadComplete (uploadComplete stC1 sidW 5).2 sidW 9 =
      (.failed noChunksMsg, (uploadComplete stC1 sidW 5).2) :=
  @uploadComplete_twice_one_artifact stC1 sidW 5 9 (assembledEntry sidW 5)
    ((uploadComplete stC1 sidW 5).2) (by decide)

/-- Concrete state for the C1 counterexample: `finalizedAt` already set,
recording not active, one chunk still stored. -/
def stC1x : ServerState :=
  { records := [{ id := sidW, sessionId := sidW, createdAt := 0, files := [],
                  metadata := { recordingActive := some false, finalizedAt := some 5,
                                lastChunkAt := none } }],
    chunks := [{ sessionId := sidW, index := 0, orig := origW, mtime := 0, payload := [7] }] }

/-- C1 counterexample: `POST /upload-complete` is not guarded by
`finalizedAt` — on a session whose `finalizedAt` is already set it still
assembles and appends another artifact, so the claim's stated guard is
not what the code implements. -/
theorem uploadComplete_not_guarded_by_finalizedAt :
    finalizedAtOf stC1x sidW = some 5 ∧
    (uploadComplete stC1x sidW 100).1 = .assembled (assembledEntry sidW 100) ∧
    sessionFilesD (uploadComplete stC1x sidW 100).2 sidW =
      sessionFilesD stC1x sidW ++ [assembledEntry sidW 100] := by decide

/-- C2: while a session's record has `recordingActive === true`, an explicit
finalize without force is rejected with a conflict and performs no
assembly (the state is returned unchanged), while a beacon finalize with
`force=true` proceeds to assembly regardless of the flag — in particular,
when chunks exist it appends the assembled artifact. -/
theorem uploadComplete_conflict_beacon_force {st : ServerState} {sid : List Char} (t : Nat)
    (h : recordingActiveFlag st sid = some true) :
    uploadComplete st sid t = (.conflict, st) ∧
    uploadCompleteBeacon st sid true t = (.triggered, assembleEffect st sid t) ∧
    (sessionChunkFiles st sid ≠ [] →
      sessionFilesD (uploadCompleteBeacon st sid true t).2 sid =
        sessionFilesD st sid ++ [assembledEntry sid t]) := by
  refine ⟨by rw [uploadComplete, if_pos h], ?_, ?_⟩
  · rw [uploadCompleteBeacon, if_neg (by simp)]
  · intro hne
    have hok := assembleChunks_of_ne t hne
    have hpost := assembleChunks_ok_post hok
    rw [uploadCompleteBeacon, if_neg (by simp)]
    simp only [assembleEffect, hok]
    exact hpost.2.2.1

/-- Concrete state for the C2 witness: active recording, one chunk. -/
def stC2 : ServerState :=
  { records := [{ id := sidW, sessionId := sidW, createdAt := 0, files := [],
                  metadata := { recordingActive := some true, finalizedAt := none,
                                lastChunkAt := some 0 } }],
    chunks := [{ sessionId := sidW, index := 0, orig := origW, mtime := 0, payload := [7] }] }

/-- Witness for C2 at a concrete active-recording state. -/
theorem uploadComplete_conflict_beacon_force_witness :
    recordingActiveFlag stC2 sidW = some true ∧
    (uploadComplete stC2 sidW 3 = (.conflict, stC2) ∧
     uploadCompleteBeacon stC2 sidW true 3 = (.triggered, assembleEffect stC2 sidW 3) ∧
     (sessionChunkFiles stC2 sidW ≠ [] →
       sessionFilesD (uploadCompleteBeacon stC2 sidW true 3).2 sidW =
         sessionFilesD stC2 sidW ++ [assembledEntry sidW 3])) :=
  ⟨by decide, uploadComplete_conflict_beacon_force 3 (by decide)⟩

/-- C4 (amended): for every session with zero stored segments whose record
is not flagged `recordingActive`, finalize fails with the
`NoSegmentsFound` error (`'no chunks found'`), the handler returns
normally (no crash — the model is a total function), and the state —
including every session's file list — is unchanged. -/
theorem uploadComplete_zero_segments {st : ServerState} {sid : List Char} (t : Nat)
    (hempty : sessionChunkFiles st sid = [])
    (hactive : recordingActiveFlag st sid ≠ some true) :
    uploadComplete st sid t = (.failed noChunksMsg, st) :=
  uploadComplete_of_no_chunks t hempty hactive

/-- Concrete state for the C4 counterexample: active recording flag, zero
stored segments. -/
def stC4 : ServerState :=
  { records := [{ id := sidW, sessionId := sidW, createdAt := 0, files := [],
                  metadata := { recordingActive := some true, finalizedAt := none,
                                lastChunkAt := some 0 } }],
    chunks := [] }

/-- C4 counterexample: a session with zero stored segments whose record is
flagged `recordingActive` is rejected with the conflict response, not
with the claimed `'no chunks found'` error. -/
theorem uploadComplete_zero_segments_conflict :
    sessionChunkFiles stC4 sidW = [] ∧
    uploadComplete stC4 sidW 7 = (.conflict, stC4) ∧
    (uploadComplete stC4 sidW 7).1 ≠ .failed noChunksMsg := by decide

/-- Concrete state for the C4 witness: no record, no chunks. -/
def stC4w : ServerState := { records := [], chunks := [] }

/-- Witness for C4 (amended) at a concrete empty state. -/
theorem uploadComplete_zero_segments_witness :
    sessionChunkFiles stC4w sidW = [] ∧
    recordingActiveFlag stC4w sidW ≠ some true ∧
    uploadComplete stC4w sidW 7 = (.failed noChunksMsg, stC4w) :=
  ⟨by decide, by decide, uploadComplete_zero_segments 7 (by decide) (by decide)⟩

/-- The session update performed by `POST /upload-answer`. -/
def answerUpd (fe : FileEntry) (now : Nat) (s : Session) : Session :=
  { s with
    metadata := { s.metadata with recordingActive := some false, finalizedAt := some now },
    files := s.files ++ [fe] }

/-- C10: a successful final-blob upload (`POST /upload-answer`) itself marks
the session finalized — `recordingActive=false`, `finalizedAt=now` —
without running any chunk assembly (the appended entry carries the
`'full'` source tag, which assembly never writes), appends exactly one
file entry, and deletes every stored chunk file of the session, so a
subsequent finalize call fails with `'no chunks found'` and the
background sweep does not target the session. -/
theorem uploadAnswer_marks_finalized (st : ServerState) (sid fname : List Char)
    (now t2 t3 : Nat) :
    recordingActiveFlag (uploadAnswer st sid fname now).1 sid = some false ∧
    finalizedAtOf (uploadAnswer st sid fname now).1 sid = some now ∧
    (uploadAnswer st sid fname now).2.source = some fullSourceS ∧
    sessionFilesD (uploadAnswer st sid fname now).1 sid =
      sessionFilesD st sid ++ [(uploadAnswer st sid fname now).2] ∧
    sessionChunkFiles (uploadAnswer st sid fname now).1 sid = [] ∧
    uploadComplete (uploadAnswer st sid fname now).1 sid t2 =
      (.failed noChunksMsg, (uploadAnswer st sid fname now).1) ∧
    sid ∉ sweepTargets (uploadAnswer st sid fname now).1 t3 := by
  have hfe : (uploadAnswer st sid fname now).2 =
      { filename := fname, source := some fullSourceS, uploadedAt := now } := rfl
  have hrec : (uploadAnswer st sid fname now).1.records =
      applyToSession sid now (answerUpd (uploadAnswer st sid fname now).2 now) st.records := rfl
  have hch : (uploadAnswer st sid fname now).1.chunks =
      st.chunks.filter (fun c => decide (¬ (sid ++ chunkSep) <+: chunkName c)) := rfl
  have hid : ∀ s : Session,
      (answerUpd (uploadAnswer st sid fname now).2 now s).id = s.id ∧
      (answerUpd (uploadAnswer st sid fname now).2 now s).sessionId = s.sessionId :=
    fun s => ⟨rfl, rfl⟩
  have hfind := findSession_applyToSession sid now
    (answerUpd (uploadAnswer st sid fname now).2 now) hid st.records
  have hflag : recordingActiveFlag (uploadAnswer st sid fname now).1 sid = some false := by
    rw [recordingActiveFlag, hrec, hfind]; rfl
  have hempty : sessionChunkFiles (uploadAnswer st sid fname now).1 sid = [] :=
    sessionChunkFiles_filter_not st.chunks (uploadAnswer st sid fname now).1.records sid
  refine ⟨hflag, ?_, rfl, ?_, hempty, ?_, ?_⟩
  · rw [finalizedAtOf, hrec, hfind]; rfl
  · rw [sessionFilesD, hrec, hfind]
    cases hf : findSession st.records sid with
    | none => simp [sessionFilesD, hf, answerUpd, freshSession]
    | some s => simp [sessionFilesD, hf, answerUpd]
  · exact uploadComplete_of_no_chunks t2 hempty (by rw [hflag]; simp)
  · intro hmem
    rw [sweepTargets] at hmem
    obtain ⟨hmem2, _⟩ := List.mem_filter.mp hmem
    obtain ⟨c, hc, hkey⟩ := List.mem_filterMap.mp (List.mem_dedup.mp hmem2)
    rw [hch] at hc
    obtain ⟨_, hnp⟩ := List.mem_filter.mp hc
    have hpre := sweepGroupKey_startsWith hkey
    simp only [decide_eq_true_eq] at hnp
    exact hnp hpre

/-- C7: the background sweep targets a chunk group exactly when the group is
nonempty, the session record (if any) neither says
`recordingActive === true` nor carries a `finalizedAt`, and the group's
most recently modified chunk file is more than 30 seconds old.  In
particular the sweep never triggers assembly for an active or already
finalized session, and only for stale groups. -/
theorem sweepTargets_characterization (st : ServerState) (now : Nat) (sid : List Char) :
    sid ∈ sweepTargets st now ↔
      ((∃ c ∈ st.chunks, sweepGroupKey c = some sid) ∧
       (∀ s, findSession st.records sid = some s →
          s.metadata.recordingActive ≠ some true ∧ s.metadata.finalizedAt = none) ∧
       30000 < now - latestMtime st sid) := by
  rw [sweepTargets, List.mem_filter, List.mem_dedup, List.mem_filterMap]
  have hpred : ∀ b : List Char,
      ((fun s => sweepShouldAssemble st s now) b = true) ↔
        ((∀ s, findSession st.records b = some s →
            s.metadata.recordingActive ≠ some true ∧ s.metadata.finalizedAt = none) ∧
         30000 < now - latestMtime st b) := by
    intro b
    rw [show (fun s => sweepShouldAssemble st s now) b = sweepShouldAssemble st b now from rfl]
    rw [sweepShouldAssemble, Bool.and_eq_true, sweepGuardB_iff, decide_eq_true_eq]
  rw [hpred sid]

/-- C3: for every set of uploaded segments of one session, in any arrival
order (`st2.chunks` an arbitrary permutation of `st.chunks`) and with any
index gaps, assembly orders the segments by the numeric sequence index
embedded in each chunk file name: the assembled order is a permutation of
the session's chunk files that is strictly increasing in the embedded
index (compared as numbers via `jsChunkIdx`, not lexically), and both the
assembly order and the concatenated byte stream are independent of the
arrival order. -/
theorem assembly_sorts_by_numeric_index {st st2 : ServerState} {sid : List Char}
    (hperm : List.Perm st2.chunks st.chunks)
    (hwf : ∀ c ∈ sessionChunkFiles st sid, jsChunkIdx (chunkName c) = some c.index)
    (hnd : ((sessionChunkFiles st sid).map ChunkFile.index).Nodup) :
    List.Perm (assembledSegments st sid) (sessionChunkFiles st sid) ∧
    ((assembledSegments st sid).map ChunkFile.index).Pairwise (· < ·) ∧
    assembledSegments st2 sid = assembledSegments st sid ∧
    assembledBytes st2 sid = assembledBytes st sid := by
  have hp : List.Perm (assembledSegments st sid) (sessionChunkFiles st sid) :=
    List.perm_insertionSort _ _
  have hfp : List.Perm (sessionChunkFiles st2 sid) (sessionChunkFiles st sid) :=
    hperm.filter _
  have hwf2 : ∀ c ∈ sessionChunkFiles st2 sid, jsChunkIdx (chunkName c) = some c.index :=
    fun c hc => hwf c (hfp.subset hc)
  have hnd2 : ((sessionChunkFiles st2 sid).map ChunkFile.index).Nodup :=
    ((hfp.map ChunkFile.index).nodup_iff).mpr hnd
  have h1 := assembledSegments_pairwise hwf hnd
  have h2 := assembledSegments_pairwise hwf2 hnd2
  have hchain : List.Perm (assembledSegments st2 sid) (assembledSegments st sid) :=
    ((List.perm_insertionSort _ _).trans hfp).trans hp.symm
  have heq : assembledSegments st2 sid = assembledSegments st sid :=
    pairwiseLtIdx_eq hchain h2 h1
  refine ⟨hp, (List.pairwise_map).mpr h1, heq, ?_⟩
  rw [assembledBytes, assembledBytes, heq]

/-- Witness chunk constructor for C3. -/
def ch3 (i t : Nat) : ChunkFile :=
  { sessionId := sidW, index := i, orig := origW, mtime := t, payload := [i] }

/-- Witness state for C3: segments with indices 10, 2, 9 in arrival order. -/
def st3 : ServerState := { records := [], chunks := [ch3 10 0, ch3 2 1, ch3 9 2] }

/-- Witness state for C3: the same segments in a different arrival order. -/
def st3b : ServerState := { records := [], chunks := [ch3 9 2, ch3 10 0, ch3 2 1] }

/-- Witness for C3 at a concrete state: the assembled order is the numeric
index order 2, 9, 10 — not the lexical order 10, 2, 9 of the embedded
digit strings — for either arrival order. -/
theorem assembly_sorts_by_numeric_index_witness :
    (List.Perm st3b.chunks st3.chunks ∧
     (∀ c ∈ sessionChunkFiles st3 sidW, jsChunkIdx (chunkName c) = some c.index) ∧
     ((sessionChunkFiles st3 sidW).map ChunkFile.index).Nodup) ∧
    (List.Perm (assembledSegments st3 sidW) (sessionChunkFiles st3 sidW) ∧
     ((assembledSegments st3 sidW).map ChunkFile.index).Pairwise (· < ·) ∧
     assembledSegments st3b sidW = assembledSegments st3 sidW ∧
     assembledBytes st3b sidW = assembledBytes st3 sidW) ∧
    (assembledSegments st3 sidW).map ChunkFile.index = [2, 9, 10] :=
  ⟨⟨by decide, by decide, by decide⟩,
   assembly_sorts_by_numeric_index (by decide) (by decide) (by decide),
   by decide⟩

/-!
Claim theorems (client side).
-/

/-- Terminal state of the timer machine after the one-shot auto stop. -/
def stoppedState : TimerState :=
  { recording := false, elapsedSeconds := maxDurationSeconds, autoStopTriggered := true,
    stopReason := some timeoutS, stopCalls := 1 }

/-- Closed form of the timer machine from a fresh recording: the counter
counts up while below the maximum, and the machine lands in the stopped
state at the 900th tick and stays there. -/
theorem timerTick_iterate (n : Nat) :
    timerTick^[n] recordingStart =
      (if n < maxDurationSeconds then
        { recording := true, elapsedSeconds := n, autoStopTriggered := false,
          stopReason := none, stopCalls := 0 }
      else stoppedState) := by
  induction n with
  | zero =>
    rw [Function.iterate_zero_apply, if_pos (by norm_num [maxDurationSeconds])]
    rfl
  | succ n ih =>
    rw [Function.iterate_succ_apply', ih]
    by_cases h1 : n < maxDurationSeconds
    · rw [if_pos h1]
      have hnle : ¬ maxDurationSeconds ≤ n := Nat.not_le.mpr h1
      by_cases h2 : n + 1 < maxDurationSeconds
      · rw [if_pos h2]
        simp [timerTick, autoStopEffect, hnle, h2]
      · rw [if_neg h2]
        have heq : n + 1 = maxDurationSeconds := by omega
        simp [timerTick, autoStopEffect, hnle, heq, stoppedState]
    · rw [if_neg h1, if_neg (by omega)]
      simp [timerTick, stoppedState]

/-- C8: while recording, the stop sequence is invoked exactly once when the
elapsed counter reaches the 900-second maximum — with the `'timeout'`
stop reason, exactly as an explicit user stop invokes the same
`stopRecording` — and later timer ticks never invoke it again; moreover,
once the one-shot `autoStopTriggeredRef` guard is set, the auto-stop
effect is the identity. -/
theorem autoStop_triggers_once (n : Nat) :
    (timerTick^[n] recordingStart).stopCalls =
      (if maxDurationSeconds ≤ n then 1 else 0) ∧
    (timerTick^[n] recordingStart).stopReason =
      (if maxDurationSeconds ≤ n then some timeoutS else none) ∧
    (∀ st : TimerState, st.autoStopTriggered = true → autoStopEffect st = st) := by
  refine ⟨?_, ?_, ?_⟩
  · rw [timerTick_iterate]
    by_cases h : n < maxDurationSeconds
    · rw [if_pos h, if_neg (by omega)]
    · rw [if_neg h, if_pos (by omega)]; rfl
  · rw [timerTick_iterate]
    by_cases h : n < maxDurationSeconds
    · rw [if_pos h, if_neg (by omega)]
    · rw [if_neg h, if_pos (by omega)]; rfl
  · intro st hst
    rw [autoStopEffect]
    by_cases hr : ¬ (st.recording = true)
    · rw [if_pos hr]
    · rw [if_neg hr]
      by_cases h2 : st.elapsedSeconds < maxDurationSeconds
      · rw [if_pos h2]
      · rw [if_neg h2, if_pos hst]

/-- Witness for C8: tick 901 shows the single stop call, and the guard is
inert on the stopped state. -/
theorem autoStop_triggers_once_witness :
    (timerTick^[901] recordingStart).stopCalls =
      (if maxDurationSeconds ≤ 901 then 1 else 0) ∧
    autoStopEffect stoppedState = stoppedState :=
  ⟨(autoStop_triggers_once 901).1,
   (autoStop_triggers_once 901).2.2 stoppedState (by decide)⟩

/-- C9: if the picker reports a non-monitor surface at every prompt, the
capture flow prompts exactly 3 times, stops the tracks of each of the 3
rejected streams, fails terminally with `ScreenShareRejected`, and
`startRecording` neither constructs the recorder nor enters the
recording state; for any picker the flow prompts at most 3 times. -/
theorem screenShare_three_rejects (picker : Nat → DisplayMedia)
    (h : ∀ i, i < 3 → (picker i).surface ≠ monitorS) :
    startDisplayStreamRequireMonitor picker =
      { outcome := .screenShareRejected,
        stoppedTracks := [(picker 0).trackId, (picker 1).trackId, (picker 2).trackId],
        prompts := 3 } ∧
    startRecording picker =
      { recording := false, recorderStarted := false, uploadError := screenRejectMsg } ∧
    (∀ p2 : Nat → DisplayMedia, (startDisplayStreamRequireMonitor p2).prompts ≤ 3) := by
  have h0 := h 0 (by omega)
  have h1 := h 1 (by omega)
  have h2 := h 2 (by omega)
  have hmain : startDisplayStreamRequireMonitor picker =
      { outcome := .screenShareRejected,
        stoppedTracks := [(picker 0).trackId, (picker 1).trackId, (picker 2).trackId],
        prompts := 3 } := by
    simp [startDisplayStreamRequireMonitor, monitorLoop, h0, h1, h2]
  refine ⟨hmain, ?_, ?_⟩
  · rw [startRecording, hmain]
  · intro p2
    by_cases q0 : (p2 0).surface = monitorS
    · simp [startDisplayStreamRequireMonitor, monitorLoop, q0]
    · by_cases q1 : (p2 1).surface = monitorS
      · simp [startDisplayStreamRequireMonitor, monitorLoop, q0, q1]
      · by_cases q2 : (p2 2).surface = monitorS
        · simp [startDisplayStreamRequireMonitor, monitorLoop, q0, q1, q2]
        · simp [startDisplayStreamRequireMonitor, monitorLoop, q0, q1, q2]

/-- Surface string a tab selection reports (anything other than
`'monitor'`). -/
def tabS : String := "browser"

/-- Picker for the C9 witness: always a tab surface. -/
def tabPicker : Nat → DisplayMedia := fun i => { surface := tabS, trackId := i }

/-- Witness for C9 at a concrete picker that always returns a tab surface. -/
theorem screenShare_three_rejects_witness :
    (∀ i, i < 3 → (tabPicker i).surface ≠ monitorS) ∧
    (startDisplayStreamRequireMonitor tabPicker =
      { outcome := .screenShareRejected,
        stoppedTracks := [(tabPicker 0).trackId, (tabPicker 1).trackId, (tabPicker 2).trackId],
        prompts := 3 } ∧
     startRecording tabPicker =
      { recording := false, recorderStarted := false, uploadError := screenRejectMsg } ∧
     (∀ p2 : Nat → DisplayMedia, (startDisplayStreamRequireMonitor p2).prompts ≤ 3)) :=
  ⟨by decide, screenShare_three_rejects tabPicker (by decide)⟩

/-- Network oracle that fails every attempt. -/
def failNet : Nat → Bool := fun _ => false

/-- C5 counterexample: in the current `Interview.jsx`, when all 3 attempts
of the final composed-blob upload fail, `stopRecording` issues no
fallback finalize call and does not reach Done — the thank-you modal
stays closed and the terminal upload error is shown — contradicting the
claimed fallback to server-side assembly and its success path. -/
theorem stopRecording_no_fallback :
    (stopRecording true failNet).finalAttempts = 3 ∧
    (stopRecording true failNet).finalizeFallbackCalled = false ∧
    (stopRecording true failNet).thankYouOpen = false ∧
    (stopRecording true failNet).uploadError = finalUploadFailedMsg := by decide

/-- C5 (amended): the current component attempts the final composed-blob
upload up to 3 times with backoff 600ms times the attempt number, and a
success within the retries reaches Done (thank-you shown); when all 3
attempts fail it surfaces the upload error without any fallback finalize
call and Done is not reached.  The legacy single-recorder variant
instead attempts the final upload once and, on failure, falls back to
the server-side finalize call; success of that fallback still reaches
Done. -/
theorem uploadFinal_retry_policy (netOk : Nat → Bool) :
    (uploadFinal netOk).attempts ≤ 3 ∧
    (uploadFinal netOk).succeeded = (netOk 0 || netOk 1 || netOk 2) ∧
    ((∀ k, k < 3 → netOk k = false) →
      uploadFinal netOk =
        { succeeded := false, attempts := 3, backoffs := [600, 1200, 1800] } ∧
      stopRecording true netOk =
        { finalAttempts := 3, backoffs := [600, 1200, 1800],
          finalizeFallbackCalled := false, thankYouOpen := false,
          uploadError := finalUploadFailedMsg }) ∧
    ((uploadFinal netOk).succeeded = true → (stopRecording true netOk).thankYouOpen = true) ∧
    (∀ answerOk finalizeOk : Bool,
      (mrOnstop answerOk finalizeOk).finalizeFallbackCalled = !answerOk) ∧
    (mrOnstop false true).thankYouOpen = true ∧
    (mrOnstop false true).uploadSucceeded = true := by
  refine ⟨?_, ?_, ?_, ?_, by decide, by decide, by decide⟩
  · cases h0 : netOk 0 <;> cases h1 : netOk 1 <;> cases h2 : netOk 2 <;>
      simp [uploadFinal, uploadFinalLoop, h0, h1, h2]
  · cases h0 : netOk 0 <;> cases h1 : netOk 1 <;> cases h2 : netOk 2 <;>
      simp [uploadFinal, uploadFinalLoop, h0, h1, h2]
  · intro hall
    have h0 := hall 0 (by omega)
    have h1 := hall 1 (by omega)
    have h2 := hall 2 (by omega)
    constructor
    · simp [uploadFinal, uploadFinalLoop, h0, h1, h2]
    · simp [stopRecording, uploadFinal, uploadFinalLoop, h0, h1, h2]
  · intro hs
    simp [stopRecording, hs]

/-- Witness for C5 (amended) at the all-failures oracle: 3 attempts with the
600/1200/1800 ms backoffs, no fallback, Done not reached. -/
theorem uploadFinal_retry_policy_witness :
    uploadFinal failNet =
      { succeeded := false, attempts := 3, backoffs := [600, 1200, 1800] } ∧
    stopRecording true failNet =
      { finalAttempts := 3, backoffs := [600, 1200, 1800],
        finalizeFallbackCalled := false, thankYouOpen := false,
        uploadError := finalUploadFailedMsg } :=
  (uploadFinal_retry_policy failNet).2.2.1 (by decide)

/-- Attempt events of the queue trace. -/
def isAttempt : QEvent → Bool
  | .attempt .. => true
  | _ => false

/-- C6: the upload queue processes segments strictly in enqueue order — for
every split point, the whole trace is the full traces of all earlier
segments followed by those of the later ones, so a later segment's first
attempt can only occur after every earlier segment has settled; each
segment is attempted at most twice with backoff 500ms times the attempt
number; every enqueued segment is attempted regardless of other
segments' failures; a segment whose two attempts both fail is logged
(`console.warn`) and dropped from the uploaded set; and the legacy
`onstop` finalization is independent of the segment-upload outcomes — in
particular a session whose final upload fails but whose fallback
finalize succeeds still reaches Done. -/
theorem uploadQueue_sequential_policy (n : Nat) (netOk : Nat → Nat → Bool) :
    (∀ j, j ≤ n → queueTrace n netOk =
        queueTrace j netOk ++
          (List.range' j (n - j)).flatMap (fun seg => (segUpload seg netOk).1)) ∧
    (∀ seg, ((segUpload seg netOk).1.countP isAttempt) ≤ 2) ∧
    (∀ seg, seg < n → QEvent.attempt seg 0 ∈ queueTrace n netOk) ∧
    (∀ seg ms, QEvent.wait seg ms ∈ (segUpload seg netOk).1 →
        (ms = 500 * 1 ∧ netOk seg 0 = false) ∨
        (ms = 500 * 2 ∧ netOk seg 0 = false ∧ netOk seg 1 = false)) ∧
    (∀ seg, (segUpload seg netOk).2 = (netOk seg 0 || netOk seg 1)) ∧
    (∀ seg, netOk seg 0 = false → netOk seg 1 = false →
        QEvent.failLog seg ∈ (segUpload seg netOk).1 ∧ seg ∉ uploadedSegs n netOk) ∧
    (∀ m2 : Nat → Nat → Bool, ∀ answerOk finalizeOk : Bool,
        (legacySessionRun n netOk answerOk finalizeOk).2 =
          (legacySessionRun n m2 answerOk finalizeOk).2) ∧
    (∀ answerOk : Bool, (mrOnstop answerOk true).thankYouOpen = true) := by
  refine ⟨?_, ?_, ?_, ?_, ?_, ?_, fun _ _ _ => rfl, by decide⟩
  · intro j hj
    rw [queueTrace, queueTrace, List.range_eq_range', List.range_eq_range']
    have hsplit : List.range' 0 j ++ List.range' (0 + j) (n - j) =
        List.range' 0 (n - j + j) := List.range'_append_1 0 j (n - j)
    rw [show n - j + j = n by omega, show (0 : Nat) + j = j from by omega] at hsplit
    rw [← hsplit, List.flatMap_append]
  · intro seg
    cases h0 : netOk seg 0 <;> cases h1 : netOk seg 1 <;>
      simp [segUpload, chunkTryLoop, isAttempt, h0, h1, List.countP_cons]
  · intro seg hseg
    rw [queueTrace]
    rw [List.mem_flatMap]
    refine ⟨seg, List.mem_range.mpr hseg, ?_⟩
    cases h0 : netOk seg 0 <;> simp [segUpload, chunkTryLoop, h0]
  · intro seg ms hmem
    cases h0 : netOk seg 0 <;> cases h1 : netOk seg 1 <;>
      simp [segUpload, chunkTryLoop, h0, h1] at hmem <;> simp [h0, h1] <;> omega
  · intro seg
    cases h0 : netOk seg 0 <;> cases h1 : netOk seg 1 <;>
      simp [segUpload, chunkTryLoop, h0, h1]
  · intro seg h0 h1
    constructor
    · simp [segUpload, chunkTryLoop, h0, h1]
    · intro hmem
      obtain ⟨-, hq⟩ := List.mem_filter.mp hmem
      rw [segUpload] at hq
      simp [chunkTryLoop, h0, h1] at hq

/-- Oracle for the C6 witness: segment 0 always fails, all others succeed. -/
def segNet : Nat → Nat → Bool := fun seg _ => seg != 0

/-- Witness for C6 at a concrete two-segment run: segment 0 fails both
attempts, is logged and dropped, while segment 1 is still uploaded, and
the trace shows the strict order with the 500ms and 1000ms backoffs. -/
theorem uploadQueue_sequential_policy_witness :
    (QEvent.failLog 0 ∈ (segUpload 0 segNet).1 ∧ 0 ∉ uploadedSegs 2 segNet) ∧
    queueTrace 2 segNet =
      [QEvent.attempt 0 0, QEvent.wait 0 500, QEvent.attempt 0 1, QEvent.failLog 0,
       QEvent.wait 0 1000, QEvent.attempt 1 0] ∧
    uploadedSegs 2 segNet = [1] :=
  ⟨(uploadQueue_sequential_policy 2 segNet).2.2.2.2.2.1 0 (by decide) (by decide),
   by decide, by decide⟩

/-- Concrete state for the C7 witness: one chunk, last modified at time
1000, no session record. -/
def stSw : ServerState :=
  { records := [],
    chunks := [{ sessionId := sidW, index := 0, orig := origW, mtime := 1000, payload := [7] }] }

/-- Witness for C7: a stale unguarded group is targeted by the sweep. -/
theorem sweepTargets_characterization_witness : sidW ∈ sweepTargets stSw 40000 :=
  (sweepTargets_characterization stSw 40000 sidW).mpr
    ⟨by decide, fun s hs => by simp [findSession, List.find?] at hs, by decide⟩

/-- Witness for C10 at a concrete state with one stored chunk. -/
theorem uploadAnswer_marks_finalized_witness :
    recordingActiveFlag (uploadAnswer stSw sidW origW 11).1 sidW = some false ∧
    finalizedAtOf (uploadAnswer stSw sidW origW 11).1 sidW = some 11 ∧
    (uploadAnswer stSw sidW origW 11).2.source = some fullSourceS ∧
    sessionFilesD (uploadAnswer stSw sidW origW 11).1 sidW =
      sessionFilesD stSw sidW ++ [(uploadAnswer stSw sidW origW 11).2] ∧
    sessionChunkFiles (uploadAnswer stSw sidW origW 11).1 sidW = [] ∧
    uploadComplete (uploadAnswer stSw sidW origW 11).1 sidW 12 =
      (.failed noChunksMsg, (uploadAnswer stSw sidW origW 11).1) ∧
    sidW ∉ sweepTargets (uploadAnswer stSw sidW origW 11).1 13 :=
  uploadAnswer_marks_finalized stSw sidW origW 11 12 13
